import Mathlib

/-!
Shallow embedding of the gemini-text-editor repository (TypeScript/React) and
proofs about its specification claims.

Numeric values carried by JavaScript numbers are modelled as rationals (`ℚ`)
for coordinate arithmetic and as naturals (`Nat`) for millisecond timestamps
and byte sizes.  `Date.now()` is modelled as an explicit `now` parameter: the
reads performed inside one synchronous invocation observe one clock value.
The IndexedDB object store is modelled as a list of records; `put`/`get`
follow the keyPath semantics used by the `idb` wrapper.
-/

namespace GeminiTextEditor

/-- Normalized bounding box `[ymin, xmin, ymax, xmax]`, each coordinate in
0-1000, from `src/types.ts` (`box_2d`). -/
structure Box2d where
  ymin : ℚ
  xmin : ℚ
  ymax : ℚ
  xmax : ℚ
deriving DecidableEq, Repr

/-- A detected text block, from `src/types.ts` (`DetectedTextBlock`). -/
structure DetectedTextBlock where
  id : String
  originalText : String
  currentText : String
  box_2d : Box2d
  textColor : String
  backgroundColor : String
  fontFamily : String
  fontWeight : String
deriving DecidableEq, Repr

/-- The fabric.js textbox configured by the block loop of `EditorCanvas`
(`src/components/LoadingOverlay.tsx`, second component in the file). -/
structure TextboxObj where
  text : String
  left : ℚ
  top : ℚ
  width : ℚ
  fontSize : ℚ
  fontFamily : String
  fontWeight : String
  fill : String
  textAlign : String
deriving DecidableEq, Repr

/-- The fabric.js mask rectangle added by `EditorCanvas` when no AI-cleaned
image is in use. -/
structure MaskRect where
  left : ℚ
  top : ℚ
  width : ℚ
  height : ℚ
  fill : String
  selectable : Bool
  evented : Bool
deriving DecidableEq, Repr

/-- Font-family translation performed by `EditorCanvas` before creating the
textbox. -/
def mapFontFamily (f : String) : String :=
  if f = "serif" then "Times New Roman"
  else if f = "monospace" then "Courier New"
  else if f = "cursive" then "Brush Script MT"
  else "Arial"

/-- The textbox `EditorCanvas` creates for one block, given the image's pixel
`width` and `height`.  Mirrors the `x`/`y`/`w`/`h` arithmetic and the
`fabric.Textbox` options of the source. -/
def mkTextbox (block : DetectedTextBlock) (width height : ℚ) : TextboxObj :=
  let x := block.box_2d.xmin / 1000 * width
  let y := block.box_2d.ymin / 1000 * height
  let w := (block.box_2d.xmax - block.box_2d.xmin) / 1000 * width
  let h := (block.box_2d.ymax - block.box_2d.ymin) / 1000 * height
  { text := block.currentText
    left := x
    top := y + h * (1 / 10)
    width := w
    fontSize := h * (8 / 10)
    fontFamily := mapFontFamily block.fontFamily
    fontWeight := block.fontWeight
    fill := block.textColor
    textAlign := "center" }

/-- The mask rectangle `EditorCanvas` creates for one block when `isCleaned`
is false.  Mirrors the `paddingX`/`paddingY` arithmetic and the
`fabric.Rect` options of the source. -/
def mkMaskRect (block : DetectedTextBlock) (width height : ℚ) : MaskRect :=
  let x := block.box_2d.xmin / 1000 * width
  let y := block.box_2d.ymin / 1000 * height
  let w := (block.box_2d.xmax - block.box_2d.xmin) / 1000 * width
  let h := (block.box_2d.ymax - block.box_2d.ymin) / 1000 * height
  let paddingX := w * (5 / 100)
  let paddingY := h * (5 / 100)
  { left := x - paddingX
    top := y - paddingY
    width := w + paddingX * 2
    height := h + paddingY * 2
    fill := block.backgroundColor
    selectable := false
    evented := false }

/-- An object added to the fabric canvas by the block loop. -/
inductive CanvasObject where
  | mask (r : MaskRect)
  | textbox (t : TextboxObj)
deriving DecidableEq, Repr

/-- Objects added for one block: the conditional mask, then the textbox, as
in the `blocks.forEach` body of `EditorCanvas`. -/
def processBlock (isCleaned : Bool) (width height : ℚ) (block : DetectedTextBlock) :
    List CanvasObject :=
  (if isCleaned then [] else [CanvasObject.mask (mkMaskRect block width height)]) ++
    [CanvasObject.textbox (mkTextbox block width height)]

/-- All objects added by the block loop, in traversal order. -/
def loadBlocks (isCleaned : Bool) (width height : ℚ) (blocks : List DetectedTextBlock) :
    List CanvasObject :=
  (blocks.map (processBlock isCleaned width height)).flatten

/-- The mask rectangles among a list of canvas objects. -/
def maskObjects (objs : List CanvasObject) : List MaskRect :=
  objs.filterMap fun o =>
    match o with
    | CanvasObject.mask r => some r
    | CanvasObject.textbox _ => none

/-- Decimal string of a natural number as a JavaScript template literal
renders a nonnegative integer. -/
def jsNatRepr (n : Nat) : String :=
  if n = 0 then "0"
  else ((Nat.digits 10 n).reverse.map Nat.digitChar).asString

/-- The block id `block-{index}-{Date.now()}` built in `analyzeImageText`
(`src/services/geminiService.ts`). -/
def mkBlockId (index now : Nat) : String :=
  "block-" ++ jsNatRepr index ++ "-" ++ jsNatRepr now

/-- One entry of the vendor response's `textBlocks` array, carrying exactly
the fields required by `responseSchema`. -/
structure RawBlock where
  originalText : String
  box_2d : Box2d
  textColor : String
  backgroundColor : String
  fontFamily : String
  fontWeight : String
deriving DecidableEq, Repr

/-- The parsed JSON payload of a successful analyze response; the
`textBlocks` field may be absent. -/
structure RawAnalysis where
  textBlocks : Option (List RawBlock)
deriving DecidableEq, Repr

/-- `AnalysisResult` from `src/types.ts`. -/
structure AnalysisResult where
  textBlocks : List DetectedTextBlock
deriving DecidableEq, Repr

/-- The per-block mapping inside `analyzeImageText`: spread the raw block,
attach a generated id, and initialize `currentText` from `originalText`. -/
def processRawBlock (now index : Nat) (b : RawBlock) : DetectedTextBlock :=
  { id := mkBlockId index now
    originalText := b.originalText
    currentText := b.originalText
    box_2d := b.box_2d
    textColor := b.textColor
    backgroundColor := b.backgroundColor
    fontFamily := b.fontFamily
    fontWeight := b.fontWeight }

/-- `analyzeImageText` over the outcome of its single network request.
`Except.error e` models the request (or JSON handling) throwing `e`; the
function rethrows it from its catch block.  `Option RawAnalysis` models
`response.text`: `none` is an empty response, which raises
"No response from Gemini". -/
def analyzeImageText (response : Except String (Option RawAnalysis)) (now : Nat) :
    Except String AnalysisResult :=
  match response with
  | Except.error e => Except.error e
  | Except.ok none => Except.error "No response from Gemini"
  | Except.ok (some data) =>
      Except.ok
        { textBlocks := (data.textBlocks.getD []).mapIdx fun index b => processRawBlock now index b }

/-- Inline image data of one response part. -/
structure InlinePart where
  data : String
deriving DecidableEq, Repr

/-- One part of a generate-content response. -/
structure ResponsePart where
  inlineData : Option InlinePart
deriving DecidableEq, Repr

/-- The content of one candidate. -/
structure ResponseContent where
  parts : List ResponsePart
deriving DecidableEq, Repr

/-- One candidate of a generate-content response. -/
structure ResponseCandidate where
  content : Option ResponseContent
deriving DecidableEq, Repr

/-- A generate-content response for the image-cleaning call. -/
structure RemoveResponse where
  candidates : List ResponseCandidate
deriving DecidableEq, Repr

/-- The optional-chaining access `response.candidates?.[0]?.content?.parts || []`. -/
def firstCandidateParts (r : RemoveResponse) : List ResponsePart :=
  match r.candidates.head? with
  | none => []
  | some c =>
      match c.content with
      | none => []
      | some ct => ct.parts

/-- The `for (const part of parts)` loop of `removeTextFromImage`: return the
prefixed data URL for the first part carrying inline data. -/
def firstInlineLoop : List ResponsePart → Option String
  | [] => none
  | p :: ps =>
      match p.inlineData with
      | some d => some ("data:image/png;base64," ++ d.data)
      | none => firstInlineLoop ps

/-- `removeTextFromImage` over the outcome of its single network request.
`Except.error` models the request throwing; the catch block turns it into
`null` (here `none`). -/
def removeTextFromImage (response : Except String RemoveResponse) : Option String :=
  match response with
  | Except.error _ => none
  | Except.ok r => firstInlineLoop (firstCandidateParts r)

/-- A persisted project record (`Project` in `src/services/geminiService.ts`,
storage section). -/
structure Project where
  id : String
  name : String
  createdAt : Nat
  updatedAt : Nat
  originalImage : String
  processedImage : Option String
  blocks : List DetectedTextBlock
deriving DecidableEq, Repr

/-- The contents of the `projects` object store. -/
abbrev ProjectStore := List Project

/-- `db.get('projects', id)`: the record whose primary key (keyPath `id`)
matches. -/
def dbGet (db : ProjectStore) (id : String) : Option Project :=
  db.find? fun p => p.id == id

/-- `db.put('projects', p)`: insert or replace the record with `p`'s primary
key. -/
def dbPut (db : ProjectStore) (p : Project) : ProjectStore :=
  (db.filter fun q => q.id != p.id) ++ [p]

/-- `createProject`: build a fresh record and `put` it.  The generated uuid
is the `freshId` parameter; both `Date.now()` reads yield `now`.  Returns the
new store and the returned id. -/
def createProject (db : ProjectStore) (freshId : String) (now : Nat)
    (name : String) (originalImage : String) (blocks : List DetectedTextBlock) :
    ProjectStore × String :=
  let project : Project :=
    { id := freshId
      name := name
      createdAt := now
      updatedAt := now
      originalImage := originalImage
      processedImage := none
      blocks := blocks }
  (dbPut db project, freshId)

/-- `getProject`. -/
def getProject (db : ProjectStore) (id : String) : Option Project :=
  dbGet db id

/-- A secondary index declared in the `upgrade` callback. -/
structure StoreIndex where
  name : String
  keyPath : String
deriving DecidableEq, Repr

/-- An object store declared in the `upgrade` callback. -/
structure ObjectStoreSchema where
  name : String
  keyPath : String
  indexes : List StoreIndex
deriving DecidableEq, Repr

/-- The database schema created by `initDB`'s `upgrade` callback. -/
def dbSchema : List ObjectStoreSchema :=
  [{ name := "projects"
     keyPath := "id"
     indexes := [{ name := "by-date", keyPath := "updatedAt" }] }]

/-- Traversal order of the `by-date` index: ascending `updatedAt`; records
with equal index keys appear in ascending primary-key order. -/
def byDateLE (a b : Project) : Prop :=
  a.updatedAt < b.updatedAt ∨ (a.updatedAt = b.updatedAt ∧ a.id ≤ b.id)

instance : DecidableRel byDateLE := fun a b => by
  unfold byDateLE
  infer_instance

/-- `getAllProjects` = `getAllFromIndex('projects', 'by-date')`: all records
in the order of the `by-date` index (modelled IndexedDB index-cursor
semantics). -/
def getAllProjects (db : ProjectStore) : List Project :=
  List.insertionSort byDateLE db

/-- A partial project update (`Partial<Project>`): a field set to `some v` is
an own property of the update object (possibly an explicit `undefined`,
hence the nested `Option` for `processedImage`); `none` means absent. -/
structure ProjectPatch where
  id : Option String := none
  name : Option String := none
  createdAt : Option Nat := none
  updatedAt : Option Nat := none
  originalImage : Option String := none
  processedImage : Option (Option String) := none
  blocks : Option (List DetectedTextBlock) := none
deriving DecidableEq, Repr

/-- The spread `{ ...project, ...updates }`. -/
def applyPatch (p : Project) (u : ProjectPatch) : Project :=
  { id := u.id.getD p.id
    name := u.name.getD p.name
    createdAt := u.createdAt.getD p.createdAt
    updatedAt := u.updatedAt.getD p.updatedAt
    originalImage := u.originalImage.getD p.originalImage
    processedImage := u.processedImage.getD p.processedImage
    blocks := u.blocks.getD p.blocks }

/-- `updateProject`: look up the record, throw if absent, otherwise `put` the
spread `{ ...project, ...updates, updatedAt: Date.now() }`.  Returns the
resulting store together with the thrown error message, if any; on a throw
the store is returned unchanged since the exception precedes the `put`. -/
def updateProject (db : ProjectStore) (id : String) (updates : ProjectPatch) (now : Nat) :
    ProjectStore × Option String :=
  match dbGet db id with
  | none => (db, some ("Project " ++ id ++ " not found"))
  | some project =>
      (dbPut db { applyPatch project updates with updatedAt := now }, none)

/-- An uploaded file: name, size in bytes, and its data-URL content as read
by `FileReader.readAsDataURL`. -/
structure FileInfo where
  name : String
  size : Nat
  content : String
deriving DecidableEq, Repr

/-- The state of the single-page editor (`src/App.tsx`) touched by
`handleFileChange`. -/
structure AppState where
  imageFile : Option FileInfo
  imageUrl : Option String
  processedImageUrl : Option String
  error : Option String
  blocks : List DetectedTextBlock
deriving DecidableEq, Repr

/-- `handleFileChange` from `src/App.tsx`; `objectUrl` models
`URL.createObjectURL(file)`. -/
def handleFileChange (s : AppState) (file : Option FileInfo) (objectUrl : String) : AppState :=
  match file with
  | none => s
  | some f =>
      if f.size > 5 * 1024 * 1024 then
        { s with error := some "File size too large. Please upload an image under 5MB." }
      else
        { s with
            imageFile := some f
            imageUrl := some objectUrl
            processedImageUrl := none
            blocks := []
            error := none }

/-- An externally visible effect of the dashboard's create handler. -/
inductive DashboardEffect where
  | alertMsg (message : String)
  | navigate (path : String)
deriving DecidableEq, Repr

/-- `file.name.split('.')[0] || "Untitled Project"`. -/
def projectNameOfFile (fileName : String) : String :=
  let first := (fileName.splitOn ".").headD ""
  if first = "" then "Untitled Project" else first

/-- `handleCreateProject` from `src/pages/Dashboard.tsx`: reject oversize
files with an alert, otherwise create the project and navigate to it. -/
def handleCreateProject (db : ProjectStore) (file : Option FileInfo)
    (freshId : String) (now : Nat) : ProjectStore × List DashboardEffect :=
  match file with
  | none => (db, [])
  | some f =>
      if f.size > 5 * 1024 * 1024 then
        (db, [DashboardEffect.alertMsg "Image size too large (max 5MB)"])
      else
        let r := createProject db freshId now (projectNameOfFile f.name) f.content []
        (r.1, [DashboardEffect.navigate ("/project/" ++ r.2)])

/-- `updateBlockText`, the state update shared by `src/App.tsx` and the
project editor page: rewrite `currentText` of the block(s) with the given
id. -/
def updateBlockText (blocks : List DetectedTextBlock) (id : String) (newText : String) :
    List DetectedTextBlock :=
  blocks.map fun b => if b.id = id then { b with currentText := newText } else b

/-! ## Sample values used by witnesses -/

/-- A sample persisted project used in concrete witnesses. -/
def sampleProject : Project :=
  { id := "a"
    name := "n"
    createdAt := 1
    updatedAt := 1
    originalImage := "o"
    processedImage := none
    blocks := [] }

/-- A sample detected block used in concrete witnesses. -/
def sampleBlock : DetectedTextBlock :=
  { id := "x"
    originalText := "a"
    currentText := "a"
    box_2d := ⟨0, 0, 1, 1⟩
    textColor := "t"
    backgroundColor := "g"
    fontFamily := "serif"
    fontWeight := "normal" }

/-- A sample oversize upload (5 MiB plus one byte). -/
def sampleBigFile : FileInfo :=
  { name := "big.png"
    size := 5 * 1024 * 1024 + 1
    content := "c" }

/-- A sample editor state used in concrete witnesses. -/
def sampleAppState : AppState :=
  { imageFile := none
    imageUrl := none
    processedImageUrl := none
    error := none
    blocks := [] }

/-- A sample raw block as delivered by the vendor. -/
def sampleRawBlock : RawBlock :=
  { originalText := "Hi"
    box_2d := ⟨0, 0, 100, 200⟩
    textColor := "#000000"
    backgroundColor := "#ffffff"
    fontFamily := "serif"
    fontWeight := "bold" }

/-- A sample parsed analyze payload with two raw blocks. -/
def sampleRawAnalysis : RawAnalysis :=
  { textBlocks := some [sampleRawBlock, sampleRawBlock] }

/-- The analysis result produced from `sampleRawAnalysis` at clock value 3. -/
def sampleAnalysisResult : AnalysisResult :=
  { textBlocks :=
      (sampleRawAnalysis.textBlocks.getD []).mapIdx fun index b => processRawBlock 3 index b }

/-! ## Theorems -/

/-- C1: for every detected text block with normalized box `[ymin, xmin, ymax,
xmax]` and image pixel dimensions `width × height`, the editor maps the block
to pixel space as `left = (xmin/1000)·width`, `top = (ymin/1000)·height`, box
width `((xmax-xmin)/1000)·width` and box height `((ymax-ymin)/1000)·height`;
the placed textbox uses that left and width, a top offset of
`(ymin/1000)·height` plus 10% of the box height, and a font size equal to 80%
of the box height. -/
theorem mkTextbox_coordinate_mapping (block : DetectedTextBlock) (width height : ℚ) :
    (mkTextbox block width height).left = block.box_2d.xmin / 1000 * width ∧
    (mkTextbox block width height).width =
      (block.box_2d.xmax - block.box_2d.xmin) / 1000 * width ∧
    (mkTextbox block width height).top =
      block.box_2d.ymin / 1000 * height +
        (1 / 10) * ((block.box_2d.ymax - block.box_2d.ymin) / 1000 * height) ∧
    (mkTextbox block width height).fontSize =
      (8 / 10) * ((block.box_2d.ymax - block.box_2d.ymin) / 1000 * height) := by
  refine ⟨rfl, rfl, ?_, ?_⟩ <;> simp only [mkTextbox] <;> ring

/-- C3: over the outcome of the single wrapped network request, a failed
request or an empty response makes `analyzeImageText` raise (rethrow, resp.
"No response from Gemini"), while a failed request makes
`removeTextFromImage` return `null` instead of raising. -/
theorem aiCalls_error_behavior (e : String) (now : Nat) :
    analyzeImageText (Except.error e) now = Except.error e ∧
    analyzeImageText (Except.ok none) now = Except.error "No response from Gemini" ∧
    removeTextFromImage (Except.error e) = none :=
  ⟨rfl, rfl, rfl⟩

lemma maskObjects_loadBlocks_true (width height : ℚ) (blocks : List DetectedTextBlock) :
    maskObjects (loadBlocks true width height blocks) = [] := by
  induction blocks with
  | nil => rfl
  | cons b t ih =>
      simp only [loadBlocks, processBlock, maskObjects, List.map_cons, List.flatten_cons,
        List.filterMap_append] at ih ⊢
      simp [ih]

lemma maskObjects_loadBlocks_false (width height : ℚ) (blocks : List DetectedTextBlock) :
    maskObjects (loadBlocks false width height blocks) =
      blocks.map fun b => mkMaskRect b width height := by
  induction blocks with
  | nil => rfl
  | cons b t ih =>
      simpa [loadBlocks, processBlock, maskObjects] using ih

/-- C10: when `isCleaned` is false the editor adds exactly one
non-selectable, non-evented rectangle per block, filled with the block's
`backgroundColor` and covering the block's pixel box enlarged by 5% of its
width on each horizontal side and 5% of its height on each vertical side;
when `isCleaned` is true no mask rectangles are added. -/
theorem maskRect_spec (width height : ℚ) (blocks : List DetectedTextBlock) :
    maskObjects (loadBlocks true width height blocks) = [] ∧
    maskObjects (loadBlocks false width height blocks) =
      (blocks.map fun b => mkMaskRect b width height) ∧
    ∀ b : DetectedTextBlock,
      (mkMaskRect b width height).left =
        b.box_2d.xmin / 1000 * width -
          (5 / 100) * ((b.box_2d.xmax - b.box_2d.xmin) / 1000 * width) ∧
      (mkMaskRect b width height).top =
        b.box_2d.ymin / 1000 * height -
          (5 / 100) * ((b.box_2d.ymax - b.box_2d.ymin) / 1000 * height) ∧
      (mkMaskRect b width height).width =
        (b.box_2d.xmax - b.box_2d.xmin) / 1000 * width +
          (5 / 100) * ((b.box_2d.xmax - b.box_2d.xmin) / 1000 * width) +
          (5 / 100) * ((b.box_2d.xmax - b.box_2d.xmin) / 1000 * width) ∧
      (mkMaskRect b width height).height =
        (b.box_2d.ymax - b.box_2d.ymin) / 1000 * height +
          (5 / 100) * ((b.box_2d.ymax - b.box_2d.ymin) / 1000 * height) +
          (5 / 100) * ((b.box_2d.ymax - b.box_2d.ymin) / 1000 * height) ∧
      (mkMaskRect b width height).fill = b.backgroundColor ∧
      (mkMaskRect b width height).selectable = false ∧
      (mkMaskRect b width height).evented = false := by
  refine ⟨maskObjects_loadBlocks_true width height blocks,
    maskObjects_loadBlocks_false width height blocks, fun b => ?_⟩
  refine ⟨?_, ?_, ?_, ?_, rfl, rfl, rfl⟩ <;> simp only [mkMaskRect] <;> ring

lemma dbGet_dbPut_self (db : ProjectStore) (p : Project) :
    dbGet (dbPut db p) p.id = some p := by
  unfold dbGet dbPut
  rw [List.find?_append]
  have hleft : (db.filter fun q => q.id != p.id).find? (fun q => q.id == p.id) = none := by
    rw [List.find?_eq_none]
    intro a ha
    simp only [List.mem_filter, bne_iff_ne, ne_eq] at ha
    simp [ha.2]
  simp [hleft, List.find?]

lemma dbGet_eq_none_of_not_mem (db : ProjectStore) (i : String)
    (h : ∀ p ∈ db, p.id ≠ i) : dbGet db i = none := by
  unfold dbGet
  rw [List.find?_eq_none]
  intro a ha
  simpa using h a ha

/-- C2: `createProject` persists a record with exactly the given name, image
and blocks, a `null` processed image and equal `createdAt`/`updatedAt`
timestamps, and returns the generated key; `getProject` on the returned key
yields exactly that record, while `getProject` on a key never stored returns
nothing. -/
theorem createProject_roundtrip (db : ProjectStore)
    (freshId name originalImage : String) (blocks : List DetectedTextBlock)
    (now : Nat) (missingId : String)
    (hmissing : ∀ p ∈ db, p.id ≠ missingId) :
    (createProject db freshId now name originalImage blocks).2 = freshId ∧
    getProject (createProject db freshId now name originalImage blocks).1 freshId =
      some { id := freshId, name := name, createdAt := now, updatedAt := now,
             originalImage := originalImage, processedImage := none, blocks := blocks } ∧
    getProject db missingId = none := by
  exact ⟨rfl, dbGet_dbPut_self db _, dbGet_eq_none_of_not_mem db missingId hmissing⟩

/-- Witness for C2 at a concrete store, file and clock. -/
theorem createProject_roundtrip_witness :
    (createProject [] "k1" 42 "poster" "dataimg" []).2 = "k1" ∧
    getProject (createProject [] "k1" 42 "poster" "dataimg" []).1 "k1" =
      some { id := "k1", name := "poster", createdAt := 42, updatedAt := 42,
             originalImage := "dataimg", processedImage := none, blocks := [] } ∧
    getProject ([] : ProjectStore) "k2" = none :=
  createProject_roundtrip [] "k1" "poster" "dataimg" [] 42 "k2" (by simp)

/-- C7: `updateProject` throws `Project {id} not found` exactly when no
record with that id is stored, leaving the store unchanged; otherwise it
stores the existing record overlaid with the fields named in the update plus
a fresh `updatedAt`, all unnamed fields (other than `updatedAt`) coming from
the existing record. -/
theorem updateProject_spec (db : ProjectStore) (id : String) (u : ProjectPatch) (now : Nat) :
    ((updateProject db id u now).2.isSome ↔ dbGet db id = none) ∧
    (dbGet db id = none →
      updateProject db id u now = (db, some ("Project " ++ id ++ " not found"))) ∧
    (∀ p, dbGet db id = some p →
      updateProject db id u now =
        (dbPut db
          { id := u.id.getD p.id
            name := u.name.getD p.name
            createdAt := u.createdAt.getD p.createdAt
            updatedAt := now
            originalImage := u.originalImage.getD p.originalImage
            processedImage := u.processedImage.getD p.processedImage
            blocks := u.blocks.getD p.blocks }, none)) := by
  unfold updateProject
  rcases h : dbGet db id with _ | p
  · simp
  · simp [applyPatch]

/-- Witness for C7: a store holding one record, updated at its key, with the
error case checked on the empty store. -/
theorem updateProject_spec_witness :
    (updateProject [sampleProject] "a" { blocks := some [sampleBlock] } 9 =
      (dbPut [sampleProject]
        { sampleProject with blocks := [sampleBlock], updatedAt := 9 }, none)) ∧
    updateProject [] "b" {} 9 = ([], some ("Project " ++ "b" ++ " not found")) :=
  ⟨(updateProject_spec [sampleProject] "a" { blocks := some [sampleBlock] } 9).2.2
      sampleProject (by rfl),
   (updateProject_spec [] "b" {} 9).2.1 (by rfl)⟩

/-- C8: an uploaded file strictly larger than 5·1024·1024 bytes is rejected
by both entry points before any further processing: the dashboard handler
leaves the store unchanged and emits only an alert (no project creation, no
navigation), and the single-page editor handler only sets the error message,
leaving every other state field (image, blocks, processed image) unchanged. -/
theorem oversizeUpload_rejected (db : ProjectStore) (f : FileInfo)
    (freshId : String) (now : Nat) (s : AppState) (objectUrl : String)
    (h : f.size > 5 * 1024 * 1024) :
    handleCreateProject db (some f) freshId now =
      (db, [DashboardEffect.alertMsg "Image size too large (max 5MB)"]) ∧
    handleFileChange s (some f) objectUrl =
      { s with error := some "File size too large. Please upload an image under 5MB." } := by
  constructor <;> simp [handleCreateProject, handleFileChange, h]

/-- Witness for C8 at a 5 MiB + 1 byte file. -/
theorem oversizeUpload_rejected_witness :
    handleCreateProject [] (some sampleBigFile) "k" 0 =
      ([], [DashboardEffect.alertMsg "Image size too large (max 5MB)"]) ∧
    handleFileChange sampleAppState (some sampleBigFile) "u" =
      { sampleAppState with
          error := some "File size too large. Please upload an image under 5MB." } :=
  oversizeUpload_rejected [] sampleBigFile "k" 0 sampleAppState "u" (by norm_num [sampleBigFile])

/-- C9: `updateBlockText` keeps length and order, rewrites `currentText` (and
nothing else) of exactly the blocks whose id matches, leaves every other
block unchanged, and is the identity when no block has the given id. -/
theorem updateBlockText_spec (blocks : List DetectedTextBlock) (id newText : String) :
    (updateBlockText blocks id newText).length = blocks.length ∧
    (∀ i (hi : i < blocks.length) (hi' : i < (updateBlockText blocks id newText).length),
      ((blocks.get ⟨i, hi⟩).id = id →
        (updateBlockText blocks id newText).get ⟨i, hi'⟩ =
          { blocks.get ⟨i, hi⟩ with currentText := newText }) ∧
      ((blocks.get ⟨i, hi⟩).id ≠ id →
        (updateBlockText blocks id newText).get ⟨i, hi'⟩ = blocks.get ⟨i, hi⟩)) ∧
    ((∀ b ∈ blocks, b.id ≠ id) → updateBlockText blocks id newText = blocks) := by
  unfold updateBlockText
  refine ⟨List.length_map _ _, ?_, ?_⟩
  · intro i hi hi'
    refine ⟨fun hmatch => ?_, fun hmiss => ?_⟩
    · simp only [List.get_eq_getElem, List.getElem_map] at hmatch ⊢
      rw [if_pos hmatch]
    · simp only [List.get_eq_getElem, List.getElem_map] at hmiss ⊢
      rw [if_neg hmiss]
  · intro h
    calc (blocks.map fun b => if b.id = id then { b with currentText := newText } else b)
        = blocks.map (fun b => b) :=
          List.map_congr_left fun a ha => by simp [h a ha]
      _ = blocks := List.map_id' blocks

/-- Witness for C9: a matching single-block list, and the identity case on a
list with no matching id. -/
theorem updateBlockText_spec_witness :
    ([sampleBlock].get ⟨0, by simp⟩).id = "x" ∧
    (updateBlockText [sampleBlock] "x" "b").get
        ⟨0, by simp [updateBlockText]⟩ = { sampleBlock with currentText := "b" } ∧
    updateBlockText [sampleBlock] "y" "c" = [sampleBlock] := by
  refine ⟨rfl, ?_, ?_⟩
  · exact (((updateBlockText_spec [sampleBlock] "x" "b").2.1 0 (by simp)
      (by simp [updateBlockText])).1 rfl)
  · exact (updateBlockText_spec [sampleBlock] "y" "c").2.2
      (by intro b hb; simp at hb; subst hb; simp [sampleBlock])

lemma firstInlineLoop_eq_find (l : List ResponsePart) :
    firstInlineLoop l =
      (l.find? fun p => p.inlineData.isSome).bind
        fun p => p.inlineData.map fun d => "data:image/png;base64," ++ d.data := by
  induction l with
  | nil => rfl
  | cons p ps ih =>
      cases hp : p.inlineData with
      | none => simp [firstInlineLoop, hp, ih]
      | some d => simp [firstInlineLoop, hp]

lemma firstInlineLoop_eq_none_iff (l : List ResponsePart) :
    firstInlineLoop l = none ↔ ∀ p ∈ l, p.inlineData = none := by
  induction l with
  | nil => simp [firstInlineLoop]
  | cons p ps ih =>
      cases hp : p.inlineData with
      | none => simp [firstInlineLoop, hp, ih]
      | some d => simp [firstInlineLoop, hp]

/-- C5: on a successful response, `removeTextFromImage` returns
`data:image/png;base64,` concatenated with the data of the first part of the
first candidate that carries inline data, and returns `null` exactly when no
part of the first candidate carries inline data. -/
theorem removeTextFromImage_first_inline (r : RemoveResponse) :
    removeTextFromImage (Except.ok r) =
      (((firstCandidateParts r).find? fun p => p.inlineData.isSome).bind
        fun p => p.inlineData.map fun d => "data:image/png;base64," ++ d.data) ∧
    (removeTextFromImage (Except.ok r) = none ↔
      ∀ p ∈ firstCandidateParts r, p.inlineData = none) :=
  ⟨firstInlineLoop_eq_find _, firstInlineLoop_eq_none_iff _⟩

/-- Witness for C5: a response whose first candidate holds one empty part and
one inline-data part. -/
theorem removeTextFromImage_first_inline_witness :
    removeTextFromImage
        (Except.ok ⟨[⟨some ⟨[⟨none⟩, ⟨some ⟨"QUJD"⟩⟩]⟩⟩]⟩) =
      some ("data:image/png;base64," ++ "QUJD") := by
  have h := (removeTextFromImage_first_inline ⟨[⟨some ⟨[⟨none⟩, ⟨some ⟨"QUJD"⟩⟩]⟩⟩]⟩).1
  simpa [firstCandidateParts, List.find?] using h

instance : IsTotal Project byDateLE :=
  ⟨fun a b => by
    unfold byDateLE
    rcases Nat.lt_trichotomy a.updatedAt b.updatedAt with h | h | h
    · exact Or.inl (Or.inl h)
    · rcases le_total a.id b.id with hid | hid
      · exact Or.inl (Or.inr ⟨h, hid⟩)
      · exact Or.inr (Or.inr ⟨h.symm, hid⟩)
    · exact Or.inr (Or.inl h)⟩

instance : IsTrans Project byDateLE :=
  ⟨fun a b c hab hbc => by
    unfold byDateLE at hab hbc ⊢
    rcases hab with h1 | ⟨e1, i1⟩ <;> rcases hbc with h2 | ⟨e2, i2⟩
    · exact Or.inl (h1.trans h2)
    · exact Or.inl (e2 ▸ h1)
    · exact Or.inl (e1 ▸ h2)
    · exact Or.inr ⟨e1.trans e2, i1.trans i2⟩⟩

/-- C6: the persistence layer declares a single object store `projects`
keyed on `id` with exactly one secondary index `by-date` on `updatedAt`, and
`getAllProjects` returns all stored projects (a permutation of the store)
ordered by ascending `updatedAt`. -/
theorem getAllProjects_schema_and_order (db : ProjectStore) :
    dbSchema = [{ name := "projects", keyPath := "id", indexes := [{ name := "by-date", keyPath := "updatedAt" }] }] ∧
    (getAllProjects db).Perm db ∧
    (getAllProjects db).Pairwise fun a b => a.updatedAt ≤ b.updatedAt := by
  refine ⟨rfl, List.perm_insertionSort byDateLE db, ?_⟩
  have h : (getAllProjects db).Pairwise byDateLE :=
    List.sorted_insertionSort byDateLE db
  refine h.imp fun hab => ?_
  rcases hab with h1 | ⟨e1, _⟩
  · exact Nat.le_of_lt h1
  · exact Nat.le_of_eq e1

lemma digitChar_inj_lt : ∀ a : Nat, a < 10 → ∀ b : Nat, b < 10 →
    Nat.digitChar a = Nat.digitChar b → a = b := by decide

lemma map_digitChar_inj : ∀ l1 l2 : List Nat, (∀ x ∈ l1, x < 10) → (∀ x ∈ l2, x < 10) →
    l1.map Nat.digitChar = l2.map Nat.digitChar → l1 = l2 := by
  intro l1
  induction l1 with
  | nil =>
      intro l2 _ _ h
      cases l2 with
      | nil => rfl
      | cons b t2 => simp at h
  | cons a t ih =>
      intro l2 h1 h2 h
      cases l2 with
      | nil => simp at h
      | cons b t2 =>
          simp only [List.map_cons, List.cons.injEq] at h
          have hab : a = b :=
            digitChar_inj_lt a (h1 a (by simp)) b (h2 b (by simp)) h.1
          have ht : t = t2 :=
            ih t2 (fun x hx => h1 x (by simp [hx])) (fun x hx => h2 x (by simp [hx])) h.2
          rw [hab, ht]

lemma string_data_inj {s t : String} (h : s.data = t.data) : s = t := by
  cases s
  cases t
  exact congrArg String.mk h

lemma asString_inj {l1 l2 : List Char} (h : l1.asString = l2.asString) : l1 = l2 := by
  have h2 := congrArg String.data h
  simpa [List.asString] using h2

lemma digits_rev_map_eq_zero_char {n : Nat}
    (h : (Nat.digits 10 n).reverse.map Nat.digitChar = ['0']) : n = 0 := by
  have hb : ∀ x ∈ (Nat.digits 10 n).reverse, x < 10 := fun x hx =>
    Nat.digits_lt_base (by norm_num) (List.mem_reverse.mp hx)
  have h0 : (Nat.digits 10 n).reverse = [0] := by
    apply map_digitChar_inj _ [0] hb (by simp)
    simpa using h
  have hdig : Nat.digits 10 n = [0] := by
    have h1 := congrArg List.reverse h0
    simpa using h1
  have h2 := Nat.ofDigits_digits 10 n
  rw [hdig] at h2
  simpa [Nat.ofDigits] using h2.symm

lemma jsNatRepr_inj : Function.Injective jsNatRepr := by
  intro m n h
  unfold jsNatRepr at h
  by_cases hm : m = 0 <;> by_cases hn : n = 0
  · rw [hm, hn]
  · exfalso
    rw [if_pos hm, if_neg hn] at h
    have h1 : List.asString ['0'] = ((Nat.digits 10 n).reverse.map Nat.digitChar).asString := by
      rw [← h]
      rfl
    exact hn (digits_rev_map_eq_zero_char (asString_inj h1).symm)
  · exfalso
    rw [if_neg hm, if_pos hn] at h
    have h1 : List.asString ['0'] = ((Nat.digits 10 m).reverse.map Nat.digitChar).asString := by
      rw [h]
      rfl
    exact hm (digits_rev_map_eq_zero_char (asString_inj h1).symm)
  · rw [if_neg hm, if_neg hn] at h
    have hbm : ∀ x ∈ (Nat.digits 10 m).reverse, x < 10 := fun x hx =>
      Nat.digits_lt_base (by norm_num) (List.mem_reverse.mp hx)
    have hbn : ∀ x ∈ (Nat.digits 10 n).reverse, x < 10 := fun x hx =>
      Nat.digits_lt_base (by norm_num) (List.mem_reverse.mp hx)
    have h2 : (Nat.digits 10 m).reverse = (Nat.digits 10 n).reverse :=
      map_digitChar_inj _ _ hbm hbn (asString_inj h)
    have h3 : Nat.digits 10 m = Nat.digits 10 n := by
      have h4 := congrArg List.reverse h2
      simpa using h4
    have h5 := Nat.ofDigits_digits 10 m
    rw [h3, Nat.ofDigits_digits] at h5
    exact h5.symm

lemma string_append_data (s t : String) : (s ++ t).data = s.data ++ t.data := rfl

lemma mkBlockId_inj (now : Nat) {i j : Nat} (h : mkBlockId i now = mkBlockId j now) :
    i = j := by
  unfold mkBlockId at h
  have hd := congrArg String.data h
  simp only [string_append_data] at hd
  have h1 := List.append_cancel_right hd
  have h2 := List.append_cancel_right h1
  have h3 := List.append_cancel_left h2
  exact jsNatRepr_inj (string_data_inj h3)

/-- C4: on a successful analyze response, every block of the result carries
the vendor-supplied bounding box, text color, background color, font family
and font weight together with `originalText` and a `currentText` initialized
equal to it; the ids within one result are pairwise distinct; and an absent
`textBlocks` field yields an empty block list. -/
theorem analyzeImageText_blocks_spec (data : RawAnalysis) (now : Nat)
    (result : AnalysisResult)
    (h : analyzeImageText (Except.ok (some data)) now = Except.ok result) :
    result.textBlocks.length = (data.textBlocks.getD []).length ∧
    (∀ i (hi : i < (data.textBlocks.getD []).length)
        (hi' : i < result.textBlocks.length),
      (result.textBlocks.get ⟨i, hi'⟩).originalText =
          ((data.textBlocks.getD []).get ⟨i, hi⟩).originalText ∧
      (result.textBlocks.get ⟨i, hi'⟩).currentText =
          (result.textBlocks.get ⟨i, hi'⟩).originalText ∧
      (result.textBlocks.get ⟨i, hi'⟩).box_2d =
          ((data.textBlocks.getD []).get ⟨i, hi⟩).box_2d ∧
      (result.textBlocks.get ⟨i, hi'⟩).textColor =
          ((data.textBlocks.getD []).get ⟨i, hi⟩).textColor ∧
      (result.textBlocks.get ⟨i, hi'⟩).backgroundColor =
          ((data.textBlocks.getD []).get ⟨i, hi⟩).backgroundColor ∧
      (result.textBlocks.get ⟨i, hi'⟩).fontFamily =
          ((data.textBlocks.getD []).get ⟨i, hi⟩).fontFamily ∧
      (result.textBlocks.get ⟨i, hi'⟩).fontWeight =
          ((data.textBlocks.getD []).get ⟨i, hi⟩).fontWeight) ∧
    (result.textBlocks.map fun b => b.id).Nodup ∧
    (data.textBlocks = none → result.textBlocks = []) := by
  obtain ⟨tb⟩ := result
  have hres : tb =
      (data.textBlocks.getD []).mapIdx fun index b => processRawBlock now index b := by
    unfold analyzeImageText at h
    injection h with h'
    exact (congrArg AnalysisResult.textBlocks h').symm
  subst hres
  refine ⟨by simp, ?_, ?_, ?_⟩
  · intro i hi hi'
    have hg := List.get_mapIdx (data.textBlocks.getD [])
      (fun index b => processRawBlock now index b) i hi hi'
    rw [hg]
    exact ⟨rfl, rfl, rfl, rfl, rfl, rfl, rfl⟩
  · rw [List.mapIdx_eq_ofFn, List.map_ofFn]
    rw [List.nodup_ofFn]
    intro i j hij
    exact Fin.ext (mkBlockId_inj now hij)
  · intro hnone
    rw [hnone]
    rfl

/-- Witness for C4: the two-block sample payload at clock value 3. -/
theorem analyzeImageText_blocks_spec_witness :
    sampleAnalysisResult.textBlocks.length =
      (sampleRawAnalysis.textBlocks.getD []).length ∧
    (sampleAnalysisResult.textBlocks.map fun b => b.id).Nodup := by
  have h := analyzeImageText_blocks_spec sampleRawAnalysis 3 sampleAnalysisResult rfl
  exact ⟨h.1, h.2.2.1⟩

end GeminiTextEditor
